import Mathlib

/-!
Verification development for the snap-Eat.io scanning/results pipeline.

The definitions below are a shallow embedding of the TypeScript source:
* `src/types.ts`              — the `Dish` / `SavedItem` data model,
* `src/components/Results.tsx`— layout selection and thumbnail framing,
* `src/components/Scanning.tsx`— response normalization and the progress
  controller,
* the application root (`App`) — `handleToggleSave` over the saved collection.

JavaScript numbers that only ever hold exact decimal values are modelled as
`ℚ`; machine timestamps as `ℕ`.  Fields that the runtime objects may lack
(everything coming out of `JSON.parse` and the object spreads built from it)
are modelled as `Option`, even where the TS interface declares them required:
the code never validates the parsed payload, so at runtime the fields can be
absent.
-/

namespace SnapEat

/-- Runtime view of a `Dish` record (`src/types.ts`).  `id`, `image` and
`isMenu` are attached by the normalizer; every other field is whatever the
parsed analysis response carried (possibly absent, hence `Option`).  The
`englishName` field is retained by the object spread in `Scanning.tsx` even
though the `Dish` interface does not declare it. -/
structure Dish where
  id : String
  name : Option String
  originalName : Option String
  englishName : Option String
  description : Option String
  image : Option String
  tags : Option (List String)
  allergens : Option (List String)
  spiceLevel : Option String
  category : Option String
  boundingBox : Option (List ℚ)
  isMenu : Option Bool
deriving DecidableEq, Repr

/-- `SavedItem extends Dish` with a `savedAt` timestamp (`src/types.ts`);
modelled as a pair of the dish snapshot and the save-time clock value. -/
structure SavedItem where
  dish : Dish
  savedAt : ℕ
deriving DecidableEq, Repr

/-! ### Results.tsx — layout selection (claim C1) -/

/-- `const isListView = results.length > 1;` (`Results.tsx` line 16). -/
def isListView (results : List Dish) : Bool :=
  results.length > 1

/-- The main content a `Results` render attempts to show. -/
inductive MainContent where
  | listView (items : List Dish)
  | singleCard (dish : Dish)
deriving DecidableEq, Repr

/-- The main block of `Results` (`Results.tsx` lines 296-304): an
empty-results notice shown iff `results.length === 0`, then
`isListView ? <ListLayout /> : <SingleItemLayout />`.  `SingleItemLayout`
begins with `const dish = results[0]; const isSaved = savedIds.includes(dish.id)`,
so on an empty result list it dereferences `undefined.id` and the render
throws — modelled as `none`. -/
def renderResultsMain (results : List Dish) : Option (Bool × MainContent) :=
  let emptyNotice := results.length == 0
  if isListView results then
    some (emptyNotice, .listView results)
  else
    match results.head? with
    | some dish => some (emptyNotice, .singleCard dish)
    | none => none

/-! ### Results.tsx — thumbnail framing (claim C5) -/

/-- The CSS style computed by `getThumbnailStyle` (`Results.tsx` lines 61-78):
`objectFit` is always `"cover"`; `objectPosition` is the `x% y%` focal pair
when one is set; `scale` the `transform: scale(...)` zoom factor when set. -/
structure ThumbnailStyle where
  objectFit : String
  objectPosition : Option (ℚ × ℚ)
  scale : Option ℚ
deriving DecidableEq, Repr

/-- `getThumbnailStyle` (`Results.tsx` lines 61-78).  A truthy `dish.isMenu`
short-circuits to plain cover.  Otherwise, with a bounding box
`[ymin, xmin, ymax, xmax]` present, the focal point is
`cx = (xmin + xmax) / 2 / 10`, `cy = (ymin + ymax) / 2 / 10` (percent on the
0-1000 scale) with a `scale(1.2)` zoom.  A bounding box with fewer than four
entries would produce `NaN` coordinates in JS; no claim touches that case and
it is mapped to the plain-cover fallback here. -/
def getThumbnailStyle (dish : Dish) : ThumbnailStyle :=
  if dish.isMenu.getD false then
    ⟨"cover", none, none⟩
  else
    match dish.boundingBox with
    | some (ymin :: xmin :: ymax :: xmax :: _) =>
        ⟨"cover", some ((xmin + xmax) / 2 / 10, (ymin + ymax) / 2 / 10),
          some (12 / 10)⟩
    | _ => ⟨"cover", none, none⟩

end SnapEat

namespace SnapEat

/-- A concrete dish for closed-form witnesses and counterexamples. -/
def sampleDish : Dish :=
  { id := "1"
    name := some "Pad Thai"
    originalName := some "ผัดไทย"
    englishName := some "Pad Thai"
    description := some "Stir-fried rice noodles"
    image := some "img"
    tags := some ["Sweet", "Salty"]
    allergens := some ["Peanuts"]
    spiceLevel := some "Mild"
    category := some "Main"
    boundingBox := some [200, 100, 600, 400]
    isMenu := some false }

/-! ### App root — `handleToggleSave` (claims C2, C10) -/

/-- `handleToggleSave` from the application root component.  The source:

```
const isAlreadySaved = savedItems.some(item => item.id === dishId);
if (isAlreadySaved) {
    setSavedItems(prev => prev.filter(item => item.id !== dishId));
} else {
    const dishToSave = currentResults.find(d => d.id === dishId)
                    || history.find(d => d.id === dishId);
    if (dishToSave) {
        setSavedItems(prev => [{ ...dishToSave, savedAt: new Date() }, ...prev]);
    }
}
```

`now` models `new Date()`.  The function returns the new `savedItems`. -/
def handleToggleSave (currentResults history : List Dish)
    (savedItems : List SavedItem) (now : ℕ) (dishId : String) :
    List SavedItem :=
  let isAlreadySaved := savedItems.any (fun item => item.dish.id == dishId)
  if isAlreadySaved then
    savedItems.filter (fun item => !(item.dish.id == dishId))
  else
    match currentResults.find? (fun d => d.id == dishId) <|>
        history.find? (fun d => d.id == dishId) with
    | some dishToSave => ⟨dishToSave, now⟩ :: savedItems
    | none => savedItems

/-! ### Scanning.tsx — response normalization (claims C3, C4, C6) -/

/-- A dish-shaped object as it comes out of `JSON.parse` on the analysis
response.  Nothing is validated, so every field may be absent. -/
structure RawDish where
  name : Option String
  originalName : Option String
  englishName : Option String
  description : Option String
  tags : Option (List String)
  allergens : Option (List String)
  spiceLevel : Option String
  category : Option String
  boundingBox : Option (List ℚ)
deriving DecidableEq, Repr

/-- The parsed top-level analysis payload: `{ isMenu?, dishes? }`. -/
structure ParsedData where
  isMenu : Option Bool
  dishes : Option (List RawDish)
deriving DecidableEq, Repr

/-- The decimal digit character for `d < 10` (so `'0'`-`'9'`). -/
def decDigitChar (d : ℕ) : Char := Char.ofNat (48 + d)

/-- Big-endian decimal digits of `n`, as JavaScript's
`Number.prototype.toString` would print them (`0` prints as `"0"`). -/
def jsDigits (n : ℕ) : List ℕ :=
  if n = 0 then [0] else (Nat.digits 10 n).reverse

/-- Model of `n.toString()` for a nonnegative integral JS number. -/
def jsNatRepr (n : ℕ) : String := ⟨(jsDigits n).map decDigitChar⟩

/-- `Date.now().toString() + index` — the id the normalizer assigns to the
dish at position `index`, where `tsNow` is the `Date.now()` sample taken for
that element. -/
def scanDishId (tsNow index : ℕ) : String := jsNatRepr tsNow ++ jsNatRepr index

/-- Model of the menu-branch image URL.  The source builds
`https://image.pollinations.ai/prompt/${encodeURIComponent(d.englishName || d.name)}%20delicious%20food%20professional%20photography%204k?nologo=true`;
percent-encoding of the name is immaterial to every claim and is modelled as
the identity. -/
def menuImageUrl (promptName : String) : String :=
  "https://image.pollinations.ai/prompt/" ++ promptName ++
    "%20delicious%20food%20professional%20photography%204k?nologo=true"

/-- JS truthiness of a possibly-absent string (`undefined` and `""` are
falsy). -/
def jsStrTruthy : Option String → Bool
  | some s => s != ""
  | none => false

/-- `a || b` on possibly-absent strings. -/
def jsOrStr (a b : Option String) : Option String :=
  if jsStrTruthy a then a else b

/-- JS string coercion of a possibly-absent value (as it would reach
`encodeURIComponent`): `undefined` coerces to `"undefined"`. -/
def jsStrCoerce : Option String → String
  | some s => s
  | none => "undefined"

/-- One step of the `dishesList.map((d, index) => ...)` body
(`Scanning.tsx` lines 124-140): the spread `{...d, id, image, isMenu}` keeps
every parsed field as-is and attaches the id, the resolved image and the
scan-level `isMenu`. -/
def processDish (tsNow index : ℕ) (isMenu : Bool) (uploadedImage : String)
    (d : RawDish) : Dish :=
  let imageUrl :=
    if isMenu then menuImageUrl (jsStrCoerce (jsOrStr d.englishName d.name))
    else uploadedImage
  { id := scanDishId tsNow index
    name := d.name
    originalName := d.originalName
    englishName := d.englishName
    description := d.description
    image := some imageUrl
    tags := d.tags
    allergens := d.allergens
    spiceLevel := d.spiceLevel
    category := d.category
    boundingBox := d.boundingBox
    isMenu := some isMenu }

/-- `dishesList.map((d, index) => ...)` with explicit index threading.
`ts index` is the `Date.now()` sample observed when the element at `index`
is processed (the source calls `Date.now()` afresh inside the callback). -/
def processDishes (ts : ℕ → ℕ) (isMenu : Bool) (uploadedImage : String) :
    ℕ → List RawDish → List Dish
  | _, [] => []
  | index, d :: rest =>
      processDish (ts index) index isMenu uploadedImage d ::
        processDishes ts isMenu uploadedImage (index + 1) rest

/-- Steps 6-7 of `analyzeImage` (`Scanning.tsx` lines 113-140), as a function
of the outcome of `JSON.parse(jsonText)`.  A parse exception lands in the
`catch` block (modelled as the propagated error).  On a successful parse the
code reads `parsedData.isMenu || false` and `parsedData.dishes || []` — a
missing flag or a missing array is silently defaulted, never rejected — and
maps every entry through `processDish` without validating any field. -/
def normalizeResponse (ts : ℕ → ℕ) (uploadedImage : String) :
    Except String ParsedData → Except String (Bool × List Dish)
  | .error e => .error e
  | .ok parsedData =>
      let isMenu := parsedData.isMenu.getD false
      let dishesList := parsedData.dishes.getD []
      .ok (isMenu, processDishes ts isMenu uploadedImage 0 dishesList)

/-- A raw dish entry with every field missing. -/
def bareRawDish : RawDish :=
  ⟨none, none, none, none, none, none, none, none, none⟩

/-! ### Scanning.tsx — progress controller and effect lifecycle
(claims C7, C8, C9) -/

/-- The `setInterval` callback (`Scanning.tsx` lines 43-50):

```
setProgress(prev => {
    if (prev >= 95) return prev;
    if (prev < 30) return prev + 3;
    if (prev < 70) return prev + 1;
    return prev + 0.3;
});
```
-/
def progressTick (prev : ℚ) : ℚ :=
  if prev ≥ 95 then prev
  else if prev < 30 then prev + 3
  else if prev < 70 then prev + 1
  else prev + 3 / 10

/-- `useState(0)` — the progress value a scan starts from. -/
def initialProgress : ℚ := 0

/-- The screen-visible scan state owned by the `Scanning` effect:
the progress value, the status line, whether the progress `setInterval` is
still live, a scheduled `setTimeout(onCancel, …)` delay if any, and the
results handed to `onComplete` if any. -/
structure ScanUiState where
  progress : ℚ
  statusText : String
  tickActive : Bool
  pendingCancelMs : Option ℕ
  committedResults : Option (List Dish)
deriving DecidableEq, Repr

/-- State at the start of `analyzeImage`, once the progress interval is
running: progress 0, initial status, no scheduled cancel, nothing
committed. -/
def initialScanState : ScanUiState :=
  ⟨initialProgress, "Identifying dish...", true, none, none⟩

/-- The `catch` block of `analyzeImage` (`Scanning.tsx` lines 147-155):
`clearInterval(progressInterval)`, and — when the component is still
mounted — show the error status, reset progress to 0 and schedule
`onCancel` after 3000 ms.  Nothing is ever handed to `onComplete` here. -/
def handleScanFailure (isMounted : Bool) (s : ScanUiState) : ScanUiState :=
  let s := { s with tickActive := false }
  if isMounted then
    { s with statusText := "Error scanning. Try again."
             progress := 0
             pendingCancelMs := some 3000 }
  else s

/-- The success path right after the API call resolves
(`Scanning.tsx` lines 110-111): `clearInterval(progressInterval);
if (isMounted) setProgress(100);`. -/
def handleScanSuccess (isMounted : Bool) (s : ScanUiState) : ScanUiState :=
  let s := { s with tickActive := false }
  if isMounted then { s with progress := 100 } else s

/-- The 500 ms completion timeout firing (`Scanning.tsx` lines 143-145):
`if (isMounted) onComplete(processedDishes)` — the results are committed only
when the liveness flag is still set at fire time. -/
def completeHandoff (isMountedAtFire : Bool) (dishes : List Dish)
    (s : ScanUiState) : ScanUiState :=
  if isMountedAtFire then { s with committedResults := some dishes } else s

/-- The effect cleanup (`Scanning.tsx` lines 160-163):
`isMounted = false; if (progressInterval) clearInterval(progressInterval);`
— teardown stops the tick source. -/
def cleanupScan (s : ScanUiState) : ScanUiState :=
  { s with tickActive := false }

/-! ### Decimal-string id arithmetic (support for claim C6) -/

theorem decDigitChar_injOn {a b : ℕ} (ha : a < 10) (hb : b < 10)
    (h : decDigitChar a = decDigitChar b) : a = b := by
  revert h
  interval_cases a <;> interval_cases b <;> decide

theorem map_decDigitChar_injOn : ∀ {l₁ l₂ : List ℕ},
    (∀ x ∈ l₁, x < 10) → (∀ x ∈ l₂, x < 10) →
    l₁.map decDigitChar = l₂.map decDigitChar → l₁ = l₂
  | [], [], _, _, _ => rfl
  | [], _ :: _, _, _, h => by simp at h
  | _ :: _, [], _, _, h => by simp at h
  | a :: l₁, b :: l₂, h₁, h₂, h => by
      simp only [List.map_cons, List.cons.injEq] at h
      have ha := h₁ a (List.mem_cons_self a l₁)
      have hb := h₂ b (List.mem_cons_self b l₂)
      have hab := decDigitChar_injOn ha hb h.1
      subst hab
      have htail := map_decDigitChar_injOn
        (fun x hx => h₁ x (List.mem_cons_of_mem _ hx))
        (fun x hx => h₂ x (List.mem_cons_of_mem _ hx)) h.2
      rw [htail]

theorem jsDigits_lt (n : ℕ) : ∀ x ∈ jsDigits n, x < 10 := by
  intro x hx
  by_cases h : n = 0
  · rw [jsDigits, if_pos h] at hx
    simp only [List.mem_singleton] at hx
    omega
  · rw [jsDigits, if_neg h] at hx
    exact Nat.digits_lt_base (by norm_num) (List.mem_reverse.mp hx)

theorem jsDigits_length_mono {a b : ℕ} (h : a ≤ b) :
    (jsDigits a).length ≤ (jsDigits b).length := by
  by_cases hb : b = 0
  · have ha : a = 0 := by omega
    rw [ha, hb]
  · by_cases ha : a = 0
    · rw [jsDigits, if_pos ha, jsDigits, if_neg hb]
      simp only [List.length_singleton, List.length_reverse]
      exact List.length_pos.mpr (Nat.digits_ne_nil_iff_ne_zero.mpr hb)
    · rw [jsDigits, if_neg ha, jsDigits, if_neg hb]
      simp only [List.length_reverse]
      exact Nat.le_digits_len_le 10 a b h

theorem jsDigits_inj : ∀ {a b : ℕ}, jsDigits a = jsDigits b → a = b := by
  have key : ∀ {n : ℕ}, n ≠ 0 → (Nat.digits 10 n).reverse = [0] → False := by
    intro n hn h
    have hd : Nat.digits 10 n = [0] := by
      have := congrArg List.reverse h
      simpa using this
    have h2 := Nat.ofDigits_digits 10 n
    rw [hd] at h2
    simp [Nat.ofDigits] at h2
    exact hn h2.symm
  intro a b h
  by_cases ha : a = 0 <;> by_cases hb : b = 0
  · omega
  · rw [jsDigits, if_pos ha, jsDigits, if_neg hb] at h
    exact absurd h.symm (fun hh => key hb hh)
  · rw [jsDigits, if_neg ha, jsDigits, if_pos hb] at h
    exact absurd h (fun hh => key ha hh)
  · rw [jsDigits, if_neg ha, jsDigits, if_neg hb] at h
    exact Nat.digits_inj_iff.mp (List.reverse_injective h)

/-- With per-element `Date.now()` samples that never decrease (time is
monotone across the synchronous map), distinct indices get distinct ids:
`<timestamp decimal>` + `<index decimal>` concatenations cannot collide. -/
theorem scanDishId_inj_of_le (ts : ℕ → ℕ) (hmono : Monotone ts) {i j : ℕ}
    (hij : i ≤ j) (h : scanDishId (ts i) i = scanDishId (ts j) j) : i = j := by
  have hdata :
      (jsDigits (ts i)).map decDigitChar ++ (jsDigits i).map decDigitChar
        = (jsDigits (ts j)).map decDigitChar
            ++ (jsDigits j).map decDigitChar := by
    have hd := congrArg String.data h
    simpa [scanDishId, jsNatRepr] using hd
  have len₁ : (jsDigits (ts i)).length ≤ (jsDigits (ts j)).length :=
    jsDigits_length_mono (hmono hij)
  have len₂ : (jsDigits i).length ≤ (jsDigits j).length :=
    jsDigits_length_mono hij
  have lensum := congrArg List.length hdata
  simp only [List.length_append, List.length_map] at lensum
  have leneq : ((jsDigits (ts i)).map decDigitChar).length
      = ((jsDigits (ts j)).map decDigitChar).length := by
    simp only [List.length_map]
    omega
  obtain ⟨-, h₂⟩ := List.append_inj hdata leneq
  exact jsDigits_inj (map_decDigitChar_injOn (jsDigits_lt i) (jsDigits_lt j) h₂)

theorem scanDishId_inj (ts : ℕ → ℕ) (hmono : Monotone ts) {i j : ℕ}
    (h : scanDishId (ts i) i = scanDishId (ts j) j) : i = j := by
  rcases le_total i j with hij | hij
  · exact scanDishId_inj_of_le ts hmono hij h
  · exact (scanDishId_inj_of_le ts hmono hij h.symm).symm

theorem mem_processDishes {ts : ℕ → ℕ} {isMenu : Bool} {img : String} :
    ∀ {k : ℕ} {ds : List RawDish} {dish : Dish},
    dish ∈ processDishes ts isMenu img k ds →
    ∃ n d, k ≤ n ∧ dish = processDish (ts n) n isMenu img d := by
  intro k ds
  induction ds generalizing k with
  | nil =>
      intro dish h
      rw [processDishes] at h
      exact absurd h (List.not_mem_nil dish)
  | cons d rest ih =>
      intro dish h
      rw [processDishes] at h
      rcases List.mem_cons.mp h with h | h
      · exact ⟨k, d, le_refl k, h⟩
      · obtain ⟨n, d', hn, hd⟩ := ih h
        exact ⟨n, d', le_trans (Nat.le_succ k) hn, hd⟩

end SnapEat

/-- C1: the claim reads "zero Dishes yields the empty-state layout, exactly
one Dish yields the single expanded-card layout, and two or more Dishes yield
the compact list layout".  The one- and two-or-more cases hold, but on zero
results the code renders the empty-state notice *and* still instantiates
`SingleItemLayout`, whose first statements read `results[0].id` of an
undefined element, so the whole render throws instead of presenting the
empty-state layout: `renderResultsMain [] = none`. -/
theorem C1_zero_results_render_crashes :
    SnapEat.renderResultsMain [] = none ∧
    (∀ d : SnapEat.Dish,
      SnapEat.renderResultsMain [d] = some (false, .singleCard d)) ∧
    (∀ (d e : SnapEat.Dish) (rest : List SnapEat.Dish),
      SnapEat.renderResultsMain (d :: e :: rest) =
        some (false, .listView (d :: e :: rest))) := by
  refine ⟨rfl, fun d => rfl, fun d e rest => ?_⟩
  simp [SnapEat.renderResultsMain, SnapEat.isListView]

/-- C5: for every non-menu dish whose bounding box is exactly
`[200, 100, 600, 400]` (`[ymin, xmin, ymax, xmax]` on the 0-1000 scale), the
thumbnail style places the focal point at `(25%, 40%)` — the midpoints of the
x- and y-ranges divided by 10 — with the `scale(1.2)` zoom applied. -/
theorem C5_thumbnail_focal_point (dish : SnapEat.Dish)
    (hmenu : dish.isMenu ≠ some true)
    (hbox : dish.boundingBox = some [200, 100, 600, 400]) :
    SnapEat.getThumbnailStyle dish =
      ⟨"cover", some (25, 40), some (6 / 5)⟩ := by
  have hm : dish.isMenu.getD false = false := by
    cases h : dish.isMenu with
    | none => rfl
    | some b =>
      cases b with
      | false => rfl
      | true => exact absurd h hmenu
  rw [SnapEat.getThumbnailStyle, hm, hbox]
  norm_num

/-- Witness for C5 at the concrete sample dish. -/
theorem C5_thumbnail_focal_point_witness :
    SnapEat.getThumbnailStyle SnapEat.sampleDish =
      ⟨"cover", some (25, 40), some (6 / 5)⟩ :=
  C5_thumbnail_focal_point SnapEat.sampleDish (by decide) rfl

/-- C2, counterexample: the claim asserts the double-toggle identity "both
when the id was initially saved and when it was initially unsaved".  It fails
in the initially-saved case: with `savedItems = [⟨sampleDish, 0⟩]` and the
dish absent from `currentResults` and `history`, the first toggle removes the
entry and the second finds nothing to re-add, leaving `[]` instead of the
original list. -/
theorem C2_toggle_twice_saved_counterexample :
    SnapEat.handleToggleSave [] []
        (SnapEat.handleToggleSave [] [] [⟨SnapEat.sampleDish, 0⟩] 5 "1") 6 "1"
      ≠ [⟨SnapEat.sampleDish, 0⟩] := by
  decide

/-- C2, amended: for every id that is *initially unsaved*, toggling twice in
succession returns `savedItems` to its original state (whether or not the
dish is found in `currentResults`/`history`); the initially-saved half of the
claim is false (`C2_toggle_twice_saved_counterexample`). -/
theorem C2_toggle_twice_unsaved_id (cr hist : List SnapEat.Dish)
    (saved : List SnapEat.SavedItem) (n₁ n₂ : ℕ) (dishId : String)
    (hunsaved : ∀ s ∈ saved, s.dish.id ≠ dishId) :
    SnapEat.handleToggleSave cr hist
        (SnapEat.handleToggleSave cr hist saved n₁ dishId) n₂ dishId
      = saved := by
  have hany : saved.any (fun item => item.dish.id == dishId) = false := by
    rw [List.any_eq_false]
    intro s hs
    simpa using hunsaved s hs
  rw [SnapEat.handleToggleSave, SnapEat.handleToggleSave]
  simp only [hany, Bool.false_eq_true, if_false]
  cases hfind : (cr.find? (fun d => d.id == dishId) <|>
      hist.find? (fun d => d.id == dishId)) with
  | none =>
      simp only [hany, Bool.false_eq_true, if_false, hfind]
  | some d =>
      have hd : d.id = dishId := by
        rcases hcr : cr.find? (fun x => x.id == dishId) with _ | d'
        · rw [hcr, Option.none_orElse] at hfind
          simpa using List.find?_some hfind
        · rw [hcr, Option.some_orElse] at hfind
          cases hfind
          simpa using List.find?_some hcr
      have hany₂ :
          (({ dish := d, savedAt := n₁ } :: saved).any
            (fun item => item.dish.id == dishId)) = true := by
        simp [hd]
      simp only [hfind, hany₂, if_true, List.filter]
      have hhead : (!(d.id == dishId)) = false := by simp [hd]
      simp only [hhead]
      exact List.filter_eq_self.mpr (fun s hs => by simpa using hunsaved s hs)

/-- Witness for C2 (amended) at concrete inputs: the id is unsaved, the dish
is found in `currentResults`, and the double toggle restores `[]`. -/
theorem C2_toggle_twice_unsaved_id_witness :
    SnapEat.handleToggleSave [SnapEat.sampleDish] []
        (SnapEat.handleToggleSave [SnapEat.sampleDish] [] [] 3 "1") 4 "1"
      = [] :=
  C2_toggle_twice_unsaved_id [SnapEat.sampleDish] [] [] 3 4 "1"
    (fun s hs => absurd hs (List.not_mem_nil s))

/-- C10: toggling save on a dish that lives in `history` (its id absent from
`currentResults` and from `savedItems`, and unique within `history`) inserts
`⟨dish, now⟩` — the historical dish's fields unchanged plus the `savedAt`
timestamp — at the *front* of `savedItems`. -/
theorem C10_toggle_save_from_history (cr hist : List SnapEat.Dish)
    (saved : List SnapEat.SavedItem) (now : ℕ) (dish : SnapEat.Dish)
    (hmem : dish ∈ hist)
    (hcr : ∀ d ∈ cr, d.id ≠ dish.id)
    (hunsaved : ∀ s ∈ saved, s.dish.id ≠ dish.id)
    (huniq : ∀ d ∈ hist, d.id = dish.id → d = dish) :
    SnapEat.handleToggleSave cr hist saved now dish.id
      = ⟨dish, now⟩ :: saved := by
  have hany : saved.any (fun item => item.dish.id == dish.id) = false := by
    rw [List.any_eq_false]
    intro s hs
    simpa using hunsaved s hs
  have hcrfind : cr.find? (fun d => d.id == dish.id) = none := by
    rw [List.find?_eq_none]
    intro d hd
    simpa using hcr d hd
  rw [SnapEat.handleToggleSave]
  simp only [hany, Bool.false_eq_true, if_false, hcrfind, Option.none_orElse]
  cases hfind : hist.find? (fun d => d.id == dish.id) with
  | none =>
      exact absurd (by simp : (dish.id == dish.id) = true)
        (by simpa using List.find?_eq_none.mp hfind dish hmem)
  | some d₀ =>
      have h₀ : d₀.id = dish.id := by simpa using List.find?_some hfind
      have : d₀ = dish := huniq d₀ (List.mem_of_find?_eq_some hfind) h₀
      rw [this]

/-- Witness for C10 at concrete inputs. -/
theorem C10_toggle_save_from_history_witness :
    SnapEat.handleToggleSave [] [SnapEat.sampleDish] [] 7 SnapEat.sampleDish.id
      = [⟨SnapEat.sampleDish, 7⟩] :=
  C10_toggle_save_from_history [] [SnapEat.sampleDish] [] 7 SnapEat.sampleDish
    (List.mem_singleton.mpr rfl)
    (fun d hd => absurd hd (List.not_mem_nil d))
    (fun s hs => absurd hs (List.not_mem_nil s))
    (fun _ hd _ => List.mem_singleton.mp hd)

/-- C3, counterexample: the claim says a dish entry missing `allergens` or
`tags` yields a Dish whose `allergens`/`tags` equal the empty sequence.  In
fact the normalizer's object spread keeps the fields exactly as parsed, so a
missing field stays missing (`none`), not an empty sequence (`some []`). -/
theorem C3_missing_fields_not_defaulted :
    (SnapEat.processDish 0 0 false "img" SnapEat.bareRawDish).allergens = none
      ∧ (SnapEat.processDish 0 0 false "img" SnapEat.bareRawDish).tags = none
      ∧ (SnapEat.processDish 0 0 false "img"
          SnapEat.bareRawDish).allergens ≠ some []
      ∧ (SnapEat.processDish 0 0 false "img"
          SnapEat.bareRawDish).tags ≠ some [] := by
  refine ⟨rfl, rfl, ?_, ?_⟩ <;> decide

/-- C3, amended: normalization passes `tags` and `allergens` through
unchanged from the parsed entry — a present sequence is kept, and a missing
field remains absent on the output Dish (downstream rendering guards against
absence, e.g. the `!allergens` check in `Results.tsx`); no defaulting to the
empty sequence takes place. -/
theorem C3_tags_allergens_passed_through (ts index : ℕ) (isMenu : Bool)
    (img : String) (d : SnapEat.RawDish) :
    (SnapEat.processDish ts index isMenu img d).allergens = d.allergens ∧
    (SnapEat.processDish ts index isMenu img d).tags = d.tags :=
  ⟨rfl, rfl⟩

/-- C4, counterexample: the claim says normalization fails with a typed
error when the scan-level `isMenu` flag is missing or an item is missing a
required field.  In fact a payload with no `isMenu` and a dish entry missing
*every* field normalizes successfully: the flag defaults to `false` and the
bare item is passed through. -/
theorem C4_missing_fields_accepted :
    SnapEat.normalizeResponse (fun _ => 0) "img"
        (.ok ⟨none, some [SnapEat.bareRawDish]⟩)
      = .ok (false, [SnapEat.processDish 0 0 false "img" SnapEat.bareRawDish])
    := rfl

/-- C4, amended: normalization fails exactly when `JSON.parse` itself threw
(malformed JSON), and then it is rejected wholesale — the error is
propagated and no Dishes are produced.  Every successfully parsed payload is
accepted: a missing `isMenu` defaults to `false`, a missing `dishes` array
defaults to `[]`, and items are not validated for required fields. -/
theorem C4_error_only_on_malformed_json (ts : ℕ → ℕ) (img : String) :
    (∀ e, SnapEat.normalizeResponse ts img (.error e) = .error e) ∧
    (∀ p, (SnapEat.normalizeResponse ts img (.ok p)).isOk = true) :=
  ⟨fun _ => rfl, fun _ => rfl⟩

/-- C7: the simulated progress never reaches 100% on its own.  Starting from
the initial value 0, every number of ticks leaves progress strictly below
100 (it is in fact capped at 95.2); the schedule decelerates — +3 below 30,
+1 from 30 to 70, +0.3 from 70 up to the soft ceiling, frozen at or above
95 — and progress becomes 100 only through the success path
(`handleScanSuccess`). -/
theorem C7_progress_stays_below_100 :
    (∀ n : ℕ, SnapEat.progressTick^[n] SnapEat.initialProgress < 100) ∧
    (∀ p : ℚ, p < 30 → SnapEat.progressTick p = p + 3) ∧
    (∀ p : ℚ, 30 ≤ p → p < 70 → SnapEat.progressTick p = p + 1) ∧
    (∀ p : ℚ, 70 ≤ p → p < 95 → SnapEat.progressTick p = p + 3 / 10) ∧
    (∀ p : ℚ, 95 ≤ p → SnapEat.progressTick p = p) ∧
    (∀ s : SnapEat.ScanUiState,
      (SnapEat.handleScanSuccess true s).progress = 100) := by
  have inv : ∀ p : ℚ, ((∃ z : ℤ, p = z / 10) ∧ p ≤ 476 / 5) →
      ((∃ z : ℤ, SnapEat.progressTick p = z / 10) ∧
        SnapEat.progressTick p ≤ 476 / 5) := by
    rintro p ⟨⟨z, rfl⟩, hle⟩
    unfold SnapEat.progressTick
    split_ifs with h1 h2 h3
    · exact ⟨⟨z, rfl⟩, hle⟩
    · exact ⟨⟨z + 30, by push_cast; ring⟩, by linarith⟩
    · exact ⟨⟨z + 10, by push_cast; ring⟩, by linarith⟩
    · refine ⟨⟨z + 3, by push_cast; ring⟩, ?_⟩
      have hq : (z : ℚ) < 950 := by
        have := lt_of_not_le h1
        linarith
      have hz : z < 950 := by exact_mod_cast hq
      have hz' : (z : ℚ) ≤ 949 := by
        have : z ≤ 949 := by omega
        exact_mod_cast this
      linarith
  have hiter : ∀ n : ℕ,
      (∃ z : ℤ, SnapEat.progressTick^[n] SnapEat.initialProgress = z / 10) ∧
      SnapEat.progressTick^[n] SnapEat.initialProgress ≤ 476 / 5 := by
    intro n
    induction n with
    | zero => exact ⟨⟨0, by norm_num [SnapEat.initialProgress]⟩,
        by norm_num [SnapEat.initialProgress]⟩
    | succ n ih =>
        rw [Function.iterate_succ_apply']
        exact inv _ ih
  refine ⟨fun n => lt_of_le_of_lt (hiter n).2 (by norm_num),
    fun p hp => ?_, fun p hp1 hp2 => ?_, fun p hp1 hp2 => ?_,
    fun p hp => ?_, fun s => rfl⟩
  · unfold SnapEat.progressTick
    rw [if_neg (by push_neg; linarith), if_pos hp]
  · unfold SnapEat.progressTick
    rw [if_neg (by push_neg; linarith), if_neg (by push_neg; linarith),
      if_pos hp2]
  · unfold SnapEat.progressTick
    rw [if_neg (by push_neg; linarith), if_neg (by push_neg; linarith),
      if_neg (by push_neg; linarith)]
  · unfold SnapEat.progressTick
    rw [if_pos (by linarith)]

/-- Witness for C7 at concrete inputs, one per hypothesis-bearing
conjunct. -/
theorem C7_progress_stays_below_100_witness :
    SnapEat.progressTick^[7] SnapEat.initialProgress < 100 ∧
    SnapEat.progressTick 10 = 10 + 3 ∧
    SnapEat.progressTick 50 = 50 + 1 ∧
    SnapEat.progressTick 80 = 80 + 3 / 10 ∧
    SnapEat.progressTick 96 = 96 :=
  ⟨C7_progress_stays_below_100.1 7,
   C7_progress_stays_below_100.2.1 10 (by norm_num),
   C7_progress_stays_below_100.2.2.1 50 (by norm_num) (by norm_num),
   C7_progress_stays_below_100.2.2.2.1 80 (by norm_num) (by norm_num),
   C7_progress_stays_below_100.2.2.2.2.1 96 (by norm_num)⟩

/-- C8: the failure path of a live scan stops the tick, resets progress to
0, shows the user-facing error status, schedules the cancellation path after
a fixed 3000 ms delay, and commits nothing — the committed-results slot is
left exactly as it was (in particular `none` when nothing had been
committed, as at `initialScanState`). -/
theorem C8_failure_resets_and_schedules_cancel (s : SnapEat.ScanUiState) :
    (SnapEat.handleScanFailure true s).progress = 0 ∧
    (SnapEat.handleScanFailure true s).statusText
      = "Error scanning. Try again." ∧
    (SnapEat.handleScanFailure true s).pendingCancelMs = some 3000 ∧
    (SnapEat.handleScanFailure true s).tickActive = false ∧
    (SnapEat.handleScanFailure true s).committedResults
      = s.committedResults := by
  refine ⟨rfl, rfl, rfl, rfl, rfl⟩

/-- C9: a response arriving after cancellation is never applied — when the
liveness flag is already cleared, the completion timeout leaves the state
completely untouched (in particular nothing is committed); results are
committed only when the flag is still set; and the effect teardown stops the
progress tick source. -/
theorem C9_cancelled_scan_response_ignored :
    (∀ (dishes : List SnapEat.Dish) (s : SnapEat.ScanUiState),
      SnapEat.completeHandoff false dishes s = s) ∧
    (∀ (dishes : List SnapEat.Dish) (s : SnapEat.ScanUiState),
      (SnapEat.completeHandoff true dishes s).committedResults
        = some dishes) ∧
    (∀ s : SnapEat.ScanUiState, (SnapEat.cleanupScan s).tickActive = false)
    := ⟨fun _ _ => rfl, fun _ _ => rfl, fun _ => rfl⟩

/-- C6: for every scan whose per-element `Date.now()` samples are
nondecreasing in the element index (time cannot run backwards across the
synchronous `map`), the normalized output has pairwise-distinct dish ids —
each id being the decimal timestamp string concatenated with the decimal
index — and carries the scan-level `isMenu` flag on every Dish. -/
theorem C6_unique_ids_uniform_isMenu (ts : ℕ → ℕ) (hmono : Monotone ts)
    (isMenu : Bool) (img : String) (ds : List SnapEat.RawDish) :
    (SnapEat.processDishes ts isMenu img 0 ds).Pairwise
      (fun a b => a.id ≠ b.id) ∧
    ∀ dish ∈ SnapEat.processDishes ts isMenu img 0 ds,
      dish.isMenu = some isMenu := by
  constructor
  · have key : ∀ (k : ℕ) (l : List SnapEat.RawDish),
        (SnapEat.processDishes ts isMenu img k l).Pairwise
          (fun a b => a.id ≠ b.id) := by
      intro k l
      induction l generalizing k with
      | nil => rw [SnapEat.processDishes]; exact List.Pairwise.nil
      | cons d rest ih =>
          rw [SnapEat.processDishes]
          refine List.Pairwise.cons ?_ (ih (k + 1))
          intro b hb hEq
          obtain ⟨n, d', hn, rfl⟩ := SnapEat.mem_processDishes hb
          have hkn : k = n := SnapEat.scanDishId_inj ts hmono hEq
          omega
    exact key 0 ds
  · intro dish h
    obtain ⟨n, d, -, rfl⟩ := SnapEat.mem_processDishes h
    rfl

/-- Witness for C6: a constant (hence monotone) timestamp sample over a
two-element scan. -/
theorem C6_unique_ids_uniform_isMenu_witness :
    (SnapEat.processDishes (fun _ => 5) true "img" 0
        [SnapEat.bareRawDish, SnapEat.bareRawDish]).Pairwise
      (fun a b => a.id ≠ b.id) ∧
    ∀ dish ∈ SnapEat.processDishes (fun _ => 5) true "img" 0
        [SnapEat.bareRawDish, SnapEat.bareRawDish],
      dish.isMenu = some true :=
  C6_unique_ids_uniform_isMenu (fun _ => 5) monotone_const true "img"
    [SnapEat.bareRawDish, SnapEat.bareRawDish]
